import Mathlib

/-
Verification of the affect classification and stabilization core of the
Emotion-Adaptive-UI repository (emotionEngine.ts, adaptation.ts).

The engine arithmetic (fusion scoring, rolling window, dwell/cooldown state
machine) is embedded over the rationals; the landmark geometry and the
calibration tracker, whose formulas use Euclidean distances, are embedded
over the reals.  All constants and formulas are transcribed from the
source (src/unnamed/part_000).
-/

namespace EmotionAdaptiveUI

/-! ## Constants (emotionEngine.ts, module top) -/

/-- Rolling window capacity, `const MAXW = 15`. -/
def MAXW : ℕ := 15

/-- Confidence threshold for a candidate switch, `const THRESH = 0.35`. -/
def THRESH : ℚ := 35/100

/-- Dwell time in milliseconds, `const DWELL_MS = 1200`. -/
def DWELL_MS : ℚ := 1200

/-- Cooldown after a committed switch, `const COOLDOWN_MS = 4500`. -/
def COOLDOWN_MS : ℚ := 4500

/-- Calibration horizon in frames, `const CAL_FRAMES = 90`. -/
def CAL_FRAMES : ℕ := 90

/-! ## Data model -/

/-- The four output labels of adaptation.ts (`type EmotionLabel`). -/
inductive EmotionLabel where
  | focused
  | happy
  | confused
  | frustrated
deriving DecidableEq, Repr

/-- A per-frame base expression distribution over the seven detector
categories (`ExpressionProbs`).  A missing key reads as 0 in the source
(`avg.neutral ?? 0`), so a total function over the seven fixed categories
is the faithful embedding. -/
structure ExpressionProbs where
  neutral : ℚ
  happy : ℚ
  sad : ℚ
  angry : ℚ
  fearful : ℚ
  disgusted : ℚ
  surprised : ℚ
deriving DecidableEq, Repr

/-- The heuristic geometry argument of `mapToFourWithHeur`
(`{ furrow: number; cornerDrop: number; mOpen?: number; ear?: number }`).
The optional fields are `Option` exactly as in the source signature. -/
structure Heur where
  furrow : ℚ
  cornerDrop : ℚ
  mOpen : Option ℚ
  ear : Option ℚ
deriving DecidableEq, Repr

/-- The normalized geometry block computed at the top of
`mapToFourWithHeur` and returned in its `geom` field. -/
structure GeomN where
  furrowN : ℚ
  squintN : ℚ
  mouthOpenN : ℚ
  cornerDropN : ℚ
deriving DecidableEq, Repr

/-- The result record of `mapToFourWithHeur` / `smoothedDecision`.
`scores` is the JS score object as an insertion-ordered association list;
`geom` is `none` for the warm-up return value `geom: {}`. -/
structure Decision where
  label : EmotionLabel
  conf : ℚ
  scores : List (EmotionLabel × ℚ)
  geom : Option GeomN
deriving DecidableEq, Repr

/-! ## Fusion scoring (`mapToFourWithHeur`, part_000 lines 150-257) -/

/-- Geometry normalization, lines 167-173:
`furrowN`, `cornerDropN`, `mouthOpenN`, `squintN`.  JS `baseEAR || 0.30`
falls back to the fixed pivot when the calibrated baseline is 0. -/
def normGeom (baseEAR : ℚ) (heur : Heur) : GeomN :=
  let pivot : ℚ := if baseEAR = 0 then 30/100 else baseEAR
  let mOpenRaw : ℚ := heur.mOpen.getD 0
  let earRaw : ℚ := heur.ear.getD pivot
  { furrowN := min 1 (max 0 heur.furrow)
    cornerDropN := min 1 (max 0 heur.cornerDrop)
    mouthOpenN := min 1 (max 0 ((mOpenRaw - 10/100) / (30/100)))
    squintN := min 1 (max 0 ((pivot - earRaw) / (12/100))) }

/-- Thinking-geometry composite, line 176. -/
def thinkGeomOf (g : GeomN) : ℚ :=
  min 1 (6/10 * g.furrowN + 6/10 * g.squintN + 2/10 * g.cornerDropN - 2/10 * g.mouthOpenN)

/-- Damped neutral, lines 177-178: `neutral *= 1 - 0.45*thinkGeom`. -/
def dampNeutral (avg : ExpressionProbs) (g : GeomN) : ℚ :=
  avg.neutral * (1 - 45/100 * thinkGeomOf g)

/-- Damped happy, line 179: `happy *= (1 - 0.35*(furrowN + squintN))`. -/
def dampHappy (avg : ExpressionProbs) (g : GeomN) : ℚ :=
  avg.happy * (1 - 35/100 * (g.furrowN + g.squintN))

/-- Base score object `raw = { frustrated, confused, happy, focused }`,
lines 212-237, in source insertion order. -/
def rawScores (avg : ExpressionProbs) (g : GeomN) : List (EmotionLabel × ℚ) :=
  let happy := dampHappy avg g
  let neutral := dampNeutral avg g
  let frustratedCore :=
    1 * g.cornerDropN + 30/100 * avg.angry + 25/100 * avg.disgusted + 18/100 * avg.sad
      - 12/100 * happy - 25/100 * g.furrowN
  let frustrated := if 12/100 ≤ g.cornerDropN then frustratedCore else 2/100
  let surprisedAssist := min (3/100) (3/100 * (avg.fearful + avg.surprised))
  let confusedCore :=
    105/100 * g.furrowN + 25/100 * g.squintN - 25/100 * g.mouthOpenN
      + surprisedAssist - 6/100 * happy
  let confused := max confusedCore (6/10 * g.furrowN)
  let focused :=
    65/100 * neutral * (1 - 6/10 * (g.furrowN + g.squintN))
      - 1/10 * (avg.surprised + avg.fearful + avg.angry)
  let happyS := 1 * happy - 12/100 * (avg.angry + avg.sad + avg.disgusted + g.squintN + g.furrowN)
  [(.frustrated, frustrated), (.confused, confused), (.happy, happyS), (.focused, focused)]

/-- Normalization step, lines 237-240: clamp each score at 0, sum, divide
by the sum (or by 1 when the sum is 0, JS `sum || 1`). -/
def normalizeScores (raw : List (EmotionLabel × ℚ)) : List (EmotionLabel × ℚ) :=
  let min0 := raw.map fun kv => (kv.1, max 0 kv.2)
  let sum0 := (min0.map Prod.snd).sum
  let s := if sum0 = 0 then 1 else sum0
  min0.map fun kv => (kv.1, kv.2 / s)

/-- Score lookup with the JS `?? 0` default used by the selection loop. -/
def lookupQ : List (EmotionLabel × ℚ) → EmotionLabel → ℚ
  | [], _ => 0
  | (k, v) :: rest, t => if k = t then v else lookupQ rest t

/-- Top-label selection, lines 242-249: iterate the fixed order
`happy, focused, confused, frustrated` starting from `(focused, -1)` and
keep the strictly greatest score. -/
def selectTop (scores : List (EmotionLabel × ℚ)) : EmotionLabel × ℚ :=
  [EmotionLabel.happy, .focused, .confused, .frustrated].foldl
    (fun acc k => let v := lookupQ scores k; if acc.2 < v then (k, v) else acc)
    (EmotionLabel.focused, -1)

/-- The 7-to-4 fusion function `mapToFourWithHeur(avg, heur)`,
lines 150-257.  `baseEAR` is the module-level calibration baseline the
source reads for squint normalization.  The furrow-override branch
(lines 186-205) short-circuits before the base scoring. -/
def mapToFourWithHeur (baseEAR : ℚ) (avg : ExpressionProbs) (heur : Heur) : Decision :=
  let g := normGeom baseEAR heur
  if 45/100 ≤ g.furrowN ∧ g.mouthOpenN ≤ 30/100 ∧ g.cornerDropN ≤ 12/100 then
    let geomConf := min 1 (85/100 * g.furrowN + 15/100 * g.squintN)
    let s : ℚ := 3/100 + 12/100 + 76/100 + 9/100
    { label := .confused
      conf := max geomConf (78/100)
      scores := [(.happy, (3/100)/s), (.focused, (12/100)/s),
                 (.confused, (76/100)/s), (.frustrated, (9/100)/s)]
      geom := some g }
  else
    let scores := normalizeScores (rawScores avg g)
    let top := selectTop scores
    { label := top.1, conf := top.2, scores := scores, geom := some g }

/-! ## Rolling window aggregation (`pushProbs`, `smoothedDecision`) -/

/-- FIFO push with eviction, lines 144-147. -/
def pushProbs (window : List ExpressionProbs) (expr : ExpressionProbs) : List ExpressionProbs :=
  let w := window ++ [expr]
  if MAXW < w.length then w.tail else w

/-- Per-category arithmetic mean of the buffered distributions,
lines 265-270 (`avg[k] += v / WINDOW.length`). -/
def avgWindow (w : List ExpressionProbs) : ExpressionProbs :=
  { neutral := (w.map ExpressionProbs.neutral).sum / w.length
    happy := (w.map ExpressionProbs.happy).sum / w.length
    sad := (w.map ExpressionProbs.sad).sum / w.length
    angry := (w.map ExpressionProbs.angry).sum / w.length
    fearful := (w.map ExpressionProbs.fearful).sum / w.length
    disgusted := (w.map ExpressionProbs.disgusted).sum / w.length
    surprised := (w.map ExpressionProbs.surprised).sum / w.length }

/-- Sum of the seven category values of a distribution. -/
def total (e : ExpressionProbs) : ℚ :=
  e.neutral + e.happy + e.sad + e.angry + e.fearful + e.disgusted + e.surprised

/-- `smoothedDecision(heur)`, lines 259-272: warm-up hold below
`Math.floor(MAXW * 0.6)` buffered entries, else fusion on the window
average.  `window` and `currentLabel` are the module variables read by
the source function. -/
def smoothedDecision (window : List ExpressionProbs) (currentLabel : EmotionLabel)
    (baseEAR : ℚ) (heur : Heur) : Decision :=
  if window.length < Nat.floor ((MAXW : ℚ) * (6/10)) then
    { label := currentLabel, conf := 1, scores := [], geom := none }
  else
    mapToFourWithHeur baseEAR (avgWindow window) heur

/-! ## Stabilization state machine (`loop`, lines 283-330) -/

/-- The shared mutable stabilization variables of the module:
`currentLabel`, `cooldownUntil`, `lastCandidate`. -/
structure StabState where
  currentLabel : EmotionLabel
  cooldownUntil : ℚ
  lastCandidate : Option (EmotionLabel × ℚ)
deriving DecidableEq, Repr

/-- Input of one decision cycle to the dwell/cooldown block: the smoothed
candidate label, its confidence, and the `Date.now()` value of the cycle. -/
structure Cycle where
  label : EmotionLabel
  conf : ℚ
  now : ℚ
deriving DecidableEq, Repr

/-- The dwell + cooldown state machine of the loop, lines 313-324:
if cooldown elapsed, confidence at threshold, and the candidate differs,
either start or confirm a pending candidate, committing the switch once
the dwell time is reached; otherwise clear the pending candidate whenever
the decision equals the current label. -/
def stepStab (st : StabState) (cyc : Cycle) : StabState :=
  if st.cooldownUntil < cyc.now ∧ THRESH ≤ cyc.conf ∧ cyc.label ≠ st.currentLabel then
    match st.lastCandidate with
    | none => { st with lastCandidate := some (cyc.label, cyc.now) }
    | some cand =>
      if cand.1 ≠ cyc.label then
        { st with lastCandidate := some (cyc.label, cyc.now) }
      else if DWELL_MS ≤ cyc.now - cand.2 then
        { currentLabel := cyc.label
          cooldownUntil := cyc.now + COOLDOWN_MS
          lastCandidate := none }
      else st
  else if cyc.label = st.currentLabel then
    { st with lastCandidate := none }
  else st

/-- A sequence of decision cycles folded through the state machine. -/
def runStab (st : StabState) (cs : List Cycle) : StabState :=
  cs.foldl stepStab st

/-- Whether a cycle reaches the commit branch of the state machine: the
pending candidate matches the cycle label, its dwell time has elapsed,
cooldown is over, confidence suffices and the label differs from the
current one. -/
def commitFires (st : StabState) (cyc : Cycle) : Prop :=
  match st.lastCandidate with
  | none => False
  | some cand =>
    st.cooldownUntil < cyc.now ∧ THRESH ≤ cyc.conf ∧ cyc.label ≠ st.currentLabel ∧
      cand.1 = cyc.label ∧ DWELL_MS ≤ cyc.now - cand.2

/-- The commit statement sequence of the loop (lines 317-320) with
explicit exception semantics for the adaptation notification:
`currentLabel = label; applyAdaptation(label); cooldownUntil = now +
COOLDOWN_MS; lastCandidate = null;`.  When `applyAdaptation` throws
synchronously (`notifyThrows = true`), the two statements after the call
do not execute and the cycle aborts before `requestAnimationFrame(tick)`,
so no next frame is scheduled; the second component records whether the
cycle completed and scheduled the next frame. -/
def commitWithNotify (st : StabState) (label : EmotionLabel) (now : ℚ)
    (notifyThrows : Bool) : StabState × Bool :=
  let st1 := { st with currentLabel := label }
  if notifyThrows then
    (st1, false)
  else
    ({ st1 with cooldownUntil := now + COOLDOWN_MS, lastCandidate := none }, true)

/-! ## Geometry and calibration (over the reals) -/

/-- A 2-D landmark point. -/
structure Pt where
  x : ℝ
  y : ℝ

/-- A 68-point landmark set: `landmarks.positions` indexed access. -/
structure Landmarks where
  positions : ℕ → Pt

/-- Euclidean distance, `dist` (line 63, `Math.hypot(dx, dy)`). -/
noncomputable def ptDist (a b : Pt) : ℝ :=
  Real.sqrt ((a.x - b.x)^2 + (a.y - b.y)^2)

/-- The additive epsilon `1e-6` guarding every distance-ratio denominator. -/
noncomputable def geps : ℝ := 1/1000000

/-- Inter-pupillary denominator `dist(L_in, R_in) + 1e-6` used by the
calibration update and by `browFurrow` (landmarks 39, 42). -/
noncomputable def ipd (lm : Landmarks) : ℝ :=
  ptDist (lm.positions 39) (lm.positions 42) + geps

/-- Mouth-width denominator `dist(left, right) + 1e-6` used by
`mouthCornerDrop` and `mouthOpen` (landmarks 48, 54). -/
noncomputable def mouthWidth (lm : Landmarks) : ℝ :=
  ptDist (lm.positions 48) (lm.positions 54) + geps

/-- Horizontal eye-aspect denominator `2*h + 1e-6` of the shared `ear`
helper. -/
noncomputable def earDen (e0 e3 : Pt) : ℝ :=
  2 * ptDist e0 e3 + geps

/-- The per-eye aspect ratio `(v1 + v2) / (2*h + 1e-6)` for the six eye
points. -/
noncomputable def earOf (e0 e1 e2 e3 e4 e5 : Pt) : ℝ :=
  (ptDist e1 e5 + ptDist e2 e4) / earDen e0 e3

/-- Per-frame normalized inner-brow spacing sample
`dist(p21, p22) / ipd` of `updateCalibration`. -/
noncomputable def betweenNow (lm : Landmarks) : ℝ :=
  ptDist (lm.positions 21) (lm.positions 22) / ipd lm

/-- Per-frame averaged eye-aspect-ratio sample `(ear(L) + ear(R)) / 2`
of `updateCalibration` and `eyeAspectRatio` (landmarks 36-41 and 42-47). -/
noncomputable def earNow (lm : Landmarks) : ℝ :=
  (earOf (lm.positions 36) (lm.positions 37) (lm.positions 38)
         (lm.positions 39) (lm.positions 40) (lm.positions 41)
   + earOf (lm.positions 42) (lm.positions 43) (lm.positions 44)
           (lm.positions 45) (lm.positions 46) (lm.positions 47)) / 2

/-- The module variables of the calibration tracker: `calCount`,
`baseBetweenN`, `baseEAR`. -/
structure CalState where
  calCount : ℕ
  baseBetweenN : ℝ
  baseEAR : ℝ

/-- Zero-initialized calibration state (module `let` declarations). -/
noncomputable def initCal : CalState := { calCount := 0, baseBetweenN := 0, baseEAR := 0 }

/-- `updateCalibration(landmarks)`, lines 67-88: no-op without landmarks
or once the counter reached `CAL_FRAMES`; otherwise increment the counter
and fold both per-frame samples into the running means with weight
`k = 1/calCount`. -/
noncomputable def updateCalibration (st : CalState) (lm? : Option Landmarks) : CalState :=
  match lm? with
  | none => st
  | some lm =>
    if CAL_FRAMES ≤ st.calCount then st
    else
      let n := st.calCount + 1
      let k : ℝ := 1 / n
      { calCount := n
        baseBetweenN := st.baseBetweenN * (1 - k) + betweenNow lm * k
        baseEAR := st.baseEAR * (1 - k) + earNow lm * k }

/-- A sequence of calibration updates. -/
noncomputable def runCal (st : CalState) (ins : List (Option Landmarks)) : CalState :=
  ins.foldl updateCalibration st

/-- `browFurrow(landmarks)`, lines 91-109: calibrated inner-brow shrink
(weight 0.75) combined with vertical brow drop (weight 0.25), clamped to
`[0,1]`; returns 0 without landmarks.  `base` is the module variable
`baseBetweenN`; JS `baseBetweenN || 0.48` falls back to the fixed pivot
when it is 0. -/
noncomputable def browFurrow (lm? : Option Landmarks) (base : ℝ) : ℝ :=
  match lm? with
  | none => 0
  | some lm =>
    let lB := lm.positions 21
    let rB := lm.positions 22
    let betweenN_now := ptDist lB rB / ipd lm
    let browMidY := (lB.y + rB.y) / 2
    let dropN := (browMidY - (lm.positions 27).y) / ipd lm
    let baseB := if base = 0 then 48/100 else base
    let shrink := max 0 (baseB - betweenN_now)
    let closeScore := min 1 (shrink / (9/100))
    let dropScore := min 1 (max 0 ((dropN - 2/100) / (14/100)))
    max 0 (min 1 (75/100 * closeScore + 25/100 * dropScore))

/-- `mouthCornerDrop(landmarks)`, lines 112-119: mean corner drop below
the mouth-center mid-Y, divided by the epsilon-guarded mouth width;
returns 0 without landmarks. -/
noncomputable def mouthCornerDrop (lm? : Option Landmarks) : ℝ :=
  match lm? with
  | none => 0
  | some lm =>
    let left := lm.positions 48
    let right := lm.positions 54
    let centerY := ((lm.positions 51).y + (lm.positions 57).y) / 2
    let drop := ((left.y - centerY) + (right.y - centerY)) / 2
    max 0 drop / mouthWidth lm

/-- `mouthOpen(landmarks)`, lines 122-128: vertical lip gap over the
epsilon-guarded mouth width; returns 0 without landmarks. -/
noncomputable def mouthOpen (lm? : Option Landmarks) : ℝ :=
  match lm? with
  | none => 0
  | some lm =>
    let gap := max 0 ((lm.positions 57).y - (lm.positions 51).y)
    gap / mouthWidth lm

/-- `eyeAspectRatio(landmarks)`, lines 131-142: mean of both per-eye
aspect ratios; returns the 0.30 pivot without landmarks. -/
noncomputable def eyeAspectRatio (lm? : Option Landmarks) : ℝ :=
  match lm? with
  | none => 30/100
  | some lm => earNow lm

/-! ## Full engine state and reset -/

/-- All module-level mutable state of emotionEngine.ts that `resetWindow`
touches: the window, the stabilization triple and the calibration state. -/
structure EngineState where
  window : List ExpressionProbs
  stab : StabState
  cal : CalState

/-- `resetWindow()`, lines 334-343: empty the window, restore the default
label, clear pending and cooldown, and zero the calibration state. -/
noncomputable def resetWindow (_st : EngineState) : EngineState :=
  { window := []
    stab := { currentLabel := .focused, cooldownUntil := 0, lastCandidate := none }
    cal := { calCount := 0, baseBetweenN := 0, baseEAR := 0 } }

/-- A non-degenerate averaged distribution: every category value lies in
the unit interval. -/
def ValidProbs (e : ExpressionProbs) : Prop :=
  0 ≤ e.neutral ∧ e.neutral ≤ 1 ∧ 0 ≤ e.happy ∧ e.happy ≤ 1 ∧
  0 ≤ e.sad ∧ e.sad ≤ 1 ∧ 0 ≤ e.angry ∧ e.angry ≤ 1 ∧
  0 ≤ e.fearful ∧ e.fearful ≤ 1 ∧ 0 ≤ e.disgusted ∧ e.disgusted ≤ 1 ∧
  0 ≤ e.surprised ∧ e.surprised ≤ 1

/-! ## Helper lemmas -/

lemma clamp01_nonneg (x : ℚ) : 0 ≤ min 1 (max 0 x) :=
  le_min zero_le_one (le_max_left 0 x)

lemma clamp01_le_one (x : ℚ) : min 1 (max 0 x) ≤ 1 :=
  min_le_left 1 _

lemma normGeom_furrowN_nonneg (baseEAR : ℚ) (heur : Heur) :
    0 ≤ (normGeom baseEAR heur).furrowN := clamp01_nonneg _

lemma normGeom_squintN_nonneg (baseEAR : ℚ) (heur : Heur) :
    0 ≤ (normGeom baseEAR heur).squintN := clamp01_nonneg _

lemma normGeom_squintN_le_one (baseEAR : ℚ) (heur : Heur) :
    (normGeom baseEAR heur).squintN ≤ 1 := clamp01_le_one _

lemma list_sum_map_div (l : List (EmotionLabel × ℚ)) (c : ℚ) :
    (l.map fun kv => kv.2 / c).sum = (l.map Prod.snd).sum / c := by
  induction l with
  | nil => simp
  | cons a t ih => simp [List.sum_cons, ih, add_div]

lemma max0_sum4_pos_fst (x y z w : ℚ) (hx : 0 < x) :
    0 < max 0 x + (max 0 y + (max 0 z + (max 0 w + 0))) := by
  have h1 : 0 < max 0 x := lt_max_iff.mpr (Or.inr hx)
  have h2 : 0 ≤ max 0 y := le_max_left _ _
  have h3 : 0 ≤ max 0 z := le_max_left _ _
  have h4 : 0 ≤ max 0 w := le_max_left _ _
  linarith

lemma max0_sum4_pos_snd (x y z w : ℚ) (hy : 0 < y) :
    0 < max 0 x + (max 0 y + (max 0 z + (max 0 w + 0))) := by
  have h1 : 0 ≤ max 0 x := le_max_left _ _
  have h2 : 0 < max 0 y := lt_max_iff.mpr (Or.inr hy)
  have h3 : 0 ≤ max 0 z := le_max_left _ _
  have h4 : 0 ≤ max 0 w := le_max_left _ _
  linarith

lemma sum_map_total (w : List ExpressionProbs) :
    (w.map total).sum =
      (w.map ExpressionProbs.neutral).sum + (w.map ExpressionProbs.happy).sum
        + (w.map ExpressionProbs.sad).sum + (w.map ExpressionProbs.angry).sum
        + (w.map ExpressionProbs.fearful).sum + (w.map ExpressionProbs.disgusted).sum
        + (w.map ExpressionProbs.surprised).sum := by
  induction w with
  | nil => simp
  | cons a t ih =>
    simp only [List.map_cons, List.sum_cons, ih, total]
    ring

lemma sum_map_total_ones (w : List ExpressionProbs) (h1 : ∀ p ∈ w, total p = 1) :
    (w.map total).sum = (w.length : ℚ) := by
  induction w with
  | nil => simp
  | cons a t ih =>
    simp only [List.map_cons, List.sum_cons, List.length_cons]
    rw [h1 a (by simp), ih (fun p hp => h1 p (by simp [hp]))]
    push_cast
    ring

/-! ## Claim theorems -/

/-- C6: after `resetWindow`, in any state, the window is empty,
`currentLabel` is the default `focused`, `cooldownUntil` is 0 (in the
past), the pending candidate is `none`, and the calibration counter and
both baseline means are zero. -/
theorem reset_completeness (st : EngineState) :
    (resetWindow st).window = [] ∧
    (resetWindow st).stab.currentLabel = .focused ∧
    (resetWindow st).stab.cooldownUntil = 0 ∧
    (resetWindow st).stab.lastCandidate = none ∧
    (resetWindow st).cal.calCount = 0 ∧
    (resetWindow st).cal.baseBetweenN = 0 ∧
    (resetWindow st).cal.baseEAR = 0 :=
  ⟨rfl, rfl, rfl, rfl, rfl, rfl, rfl⟩

/-- C4: with fewer than `Math.floor(MAXW * 0.6) = 9` buffered
distributions, `smoothedDecision` returns the previous stable label with
confidence 1 and an empty score map for every geometric input; neither
the fusion scoring nor the furrow override is reached. -/
theorem warmup_hold (window : List ExpressionProbs) (cur : EmotionLabel)
    (baseEAR : ℚ) (heur : Heur) (h : window.length < 9) :
    Nat.floor ((MAXW : ℚ) * (6/10)) = 9 ∧
    smoothedDecision window cur baseEAR heur =
      { label := cur, conf := 1, scores := [], geom := none } := by
  have hfloor : Nat.floor ((MAXW : ℚ) * (6/10)) = 9 := by norm_num [MAXW]
  refine ⟨hfloor, ?_⟩
  unfold smoothedDecision
  rw [hfloor, if_pos h]

/-- Witness for C4 at the empty window, a non-default current label and a
maximal-furrow geometric input. -/
theorem warmup_hold_witness :
    (([] : List ExpressionProbs).length < 9) ∧
    (Nat.floor ((MAXW : ℚ) * (6/10)) = 9 ∧
     smoothedDecision [] .confused 0 ⟨1, 0, none, none⟩ =
       { label := .confused, conf := 1, scores := [], geom := none }) :=
  ⟨by simp, warmup_hold [] .confused 0 ⟨1, 0, none, none⟩ (by simp)⟩

/-- C7 counterexample: at a concrete pending state, when the adaptation
notification throws, the commit is not complete before the notification -
`cooldownUntil` is never set to `now + COOLDOWN_MS`, the pending
candidate is not cleared, and the decision cycle halts (the claim asserts
all three updates precede the notification and the loop survives). -/
theorem commit_notify_counterexample :
    ¬ ((commitWithNotify ⟨.focused, 0, some (.confused, 800)⟩ .confused 2000 true).1.cooldownUntil
          = 2000 + COOLDOWN_MS ∧
       (commitWithNotify ⟨.focused, 0, some (.confused, 800)⟩ .confused 2000 true).1.lastCandidate
          = none ∧
       (commitWithNotify ⟨.focused, 0, some (.confused, 800)⟩ .confused 2000 true).2 = true) := by
  norm_num [commitWithNotify, COOLDOWN_MS]

/-- C7 (amended): on a committed switch, `currentLabel` is assigned
before the adaptation notification is invoked; `cooldownUntil` and the
pending-candidate clear execute only after the notification returns, so a
notification that throws leaves them at their old values and aborts the
rest of the cycle, halting the loop; when the notification returns
normally the full commit takes effect and the cycle completes. -/
theorem commit_notify_order (st : StabState) (label : EmotionLabel) (now : ℚ) :
    (commitWithNotify st label now true).1.currentLabel = label ∧
    (commitWithNotify st label now true).1.cooldownUntil = st.cooldownUntil ∧
    (commitWithNotify st label now true).1.lastCandidate = st.lastCandidate ∧
    (commitWithNotify st label now true).2 = false ∧
    (commitWithNotify st label now false).1.currentLabel = label ∧
    (commitWithNotify st label now false).1.cooldownUntil = now + COOLDOWN_MS ∧
    (commitWithNotify st label now false).1.lastCandidate = none ∧
    (commitWithNotify st label now false).2 = true :=
  ⟨rfl, rfl, rfl, rfl, rfl, rfl, rfl, rfl⟩

/-- C10 counterexample: a non-empty window holding one distribution whose
values sum to 1/2 averages to a distribution whose values sum to 1/2,
not 1 - the aggregator does not renormalize. -/
theorem aggregator_sum_counterexample :
    (([⟨1/2, 0, 0, 0, 0, 0, 0⟩] : List ExpressionProbs) ≠ []) ∧
    total (avgWindow [⟨1/2, 0, 0, 0, 0, 0, 0⟩]) ≠ 1 := by
  constructor
  · simp
  · norm_num [total, avgWindow]

/-- C10 (amended): the total of the averaged distribution times the window
length equals the sum of the per-frame totals (the total of the average is the
arithmetic mean of the per-frame totals); in particular the average sums
to 1 whenever every buffered distribution sums to 1. -/
theorem aggregator_average_total (w : List ExpressionProbs) (h : w ≠ []) :
    total (avgWindow w) * (w.length : ℚ) = (w.map total).sum ∧
    ((∀ p ∈ w, total p = 1) → total (avgWindow w) = 1) := by
  have hn : ((w.length : ℚ)) ≠ 0 := by
    have := List.length_pos.mpr h
    exact_mod_cast this.ne'
  have hmain : total (avgWindow w) * (w.length : ℚ) = (w.map total).sum := by
    rw [sum_map_total]
    unfold total avgWindow
    simp only
    rw [div_add_div_same, div_add_div_same, div_add_div_same, div_add_div_same,
        div_add_div_same, div_add_div_same, div_mul_cancel₀ _ hn]
  refine ⟨hmain, fun h1 => ?_⟩
  have hone : total (avgWindow w) * (w.length : ℚ) = 1 * (w.length : ℚ) := by
    rw [hmain, sum_map_total_ones w h1, one_mul]
  exact mul_right_cancel₀ hn hone

/-- Witness for C10 (amended): the mean-of-totals conjunct is exercised
on a window whose frames total 1/2 and 1/4 (no renormalization), and the
sums-to-1 conjunct on a window whose frames each total 1. -/
theorem aggregator_average_total_witness :
    (([⟨1/2, 0, 0, 0, 0, 0, 0⟩, ⟨0, 1/4, 0, 0, 0, 0, 0⟩] : List ExpressionProbs) ≠ []) ∧
    (total (avgWindow [⟨1/2, 0, 0, 0, 0, 0, 0⟩, ⟨0, 1/4, 0, 0, 0, 0, 0⟩])
        * (([⟨1/2, 0, 0, 0, 0, 0, 0⟩, ⟨0, 1/4, 0, 0, 0, 0, 0⟩] : List ExpressionProbs).length : ℚ)
      = (([⟨1/2, 0, 0, 0, 0, 0, 0⟩, ⟨0, 1/4, 0, 0, 0, 0, 0⟩] : List ExpressionProbs).map total).sum) ∧
    (∀ p ∈ ([⟨1, 0, 0, 0, 0, 0, 0⟩, ⟨0, 1/2, 1/2, 0, 0, 0, 0⟩] : List ExpressionProbs),
        total p = 1) ∧
    total (avgWindow [⟨1, 0, 0, 0, 0, 0, 0⟩, ⟨0, 1/2, 1/2, 0, 0, 0, 0⟩]) = 1 :=
  ⟨by simp,
   (aggregator_average_total [⟨1/2, 0, 0, 0, 0, 0, 0⟩, ⟨0, 1/4, 0, 0, 0, 0, 0⟩] (by simp)).1,
   by norm_num [total],
   (aggregator_average_total [⟨1, 0, 0, 0, 0, 0, 0⟩, ⟨0, 1/2, 1/2, 0, 0, 0, 0⟩] (by simp)).2
     (by norm_num [total])⟩

/-- C1: whenever the normalized furrow is at least 0.45, the normalized
mouth-open is at most 0.30 and the normalized corner-drop is at most
0.12, the fusion function returns label `confused` with the fixed score
distribution 0.03/0.12/0.76/0.09 and confidence
`max (min 1 (0.85*furrowN + 0.15*squintN)) 0.78`, regardless of the base
expression distribution. -/
theorem override_precedence (baseEAR : ℚ) (avg : ExpressionProbs) (heur : Heur)
    (h1 : 45/100 ≤ (normGeom baseEAR heur).furrowN)
    (h2 : (normGeom baseEAR heur).mouthOpenN ≤ 30/100)
    (h3 : (normGeom baseEAR heur).cornerDropN ≤ 12/100) :
    mapToFourWithHeur baseEAR avg heur =
      { label := .confused
        conf := max (min 1 (85/100 * (normGeom baseEAR heur).furrowN
                  + 15/100 * (normGeom baseEAR heur).squintN)) (78/100)
        scores := [(.happy, 3/100), (.focused, 12/100),
                   (.confused, 76/100), (.frustrated, 9/100)]
        geom := some (normGeom baseEAR heur) } := by
  unfold mapToFourWithHeur
  rw [if_pos ⟨h1, h2, h3⟩]
  norm_num

/-- Witness for C1: an averaged distribution fully dominated by `angry`
still yields `confused` under the override conditions. -/
theorem override_precedence_witness :
    45/100 ≤ (normGeom 0 ⟨1/2, 0, none, none⟩).furrowN ∧
    (normGeom 0 ⟨1/2, 0, none, none⟩).mouthOpenN ≤ 30/100 ∧
    (normGeom 0 ⟨1/2, 0, none, none⟩).cornerDropN ≤ 12/100 ∧
    mapToFourWithHeur 0 ⟨0, 0, 0, 1, 0, 0, 0⟩ ⟨1/2, 0, none, none⟩ =
      { label := .confused
        conf := 78/100
        scores := [(.happy, 3/100), (.focused, 12/100),
                   (.confused, 76/100), (.frustrated, 9/100)]
        geom := some ⟨1/2, 0, 0, 0⟩ } := by
  refine ⟨by norm_num [normGeom], by norm_num [normGeom], by norm_num [normGeom], ?_⟩
  have h := override_precedence 0 ⟨0, 0, 0, 1, 0, 0, 0⟩ ⟨1/2, 0, none, none⟩
    (by norm_num [normGeom]) (by norm_num [normGeom]) (by norm_num [normGeom])
  rw [h]
  norm_num [normGeom]

lemma stepStab_label_of_not_commit (st : StabState) (cyc : Cycle)
    (h : ¬ commitFires st cyc) :
    (stepStab st cyc).currentLabel = st.currentLabel := by
  unfold stepStab
  by_cases hmain : st.cooldownUntil < cyc.now ∧ THRESH ≤ cyc.conf ∧ cyc.label ≠ st.currentLabel
  · rw [if_pos hmain]
    rcases hcand : st.lastCandidate with _ | cand
    · simp
    · simp only
      by_cases hne : cand.1 ≠ cyc.label
      · rw [if_pos hne]
      · rw [if_neg hne]
        push_neg at hne
        by_cases hd : DWELL_MS ≤ cyc.now - cand.2
        · exact absurd (by rw [commitFires, hcand]; exact ⟨hmain.1, hmain.2.1, hmain.2.2, hne, hd⟩) h
        · rw [if_neg hd]
  · rw [if_neg hmain]
    by_cases heq : cyc.label = st.currentLabel
    · rw [if_pos heq]
    · rw [if_neg heq]

lemma runStab_label_of_no_commit : ∀ (cs : List Cycle) (st0 : StabState),
    (∀ i (hi : i < cs.length),
      ¬ commitFires (runStab st0 (cs.take i)) (cs.get ⟨i, hi⟩)) →
    (runStab st0 cs).currentLabel = st0.currentLabel := by
  intro cs
  induction cs with
  | nil => intro st0 _; rfl
  | cons c t ih =>
    intro st0 h
    have h0 : ¬ commitFires st0 c := by
      have := h 0 (by simp)
      simpa [runStab] using this
    have ht : ∀ i (hi : i < t.length),
        ¬ commitFires (runStab (stepStab st0 c) (t.take i)) (t.get ⟨i, hi⟩) := by
      intro i hi
      have := h (i + 1) (by simpa using Nat.succ_lt_succ hi)
      simpa [runStab, List.take_succ_cons] using this
    calc (runStab st0 (c :: t)).currentLabel
        = (runStab (stepStab st0 c) t).currentLabel := rfl
      _ = (stepStab st0 c).currentLabel := ih (stepStab st0 c) ht
      _ = st0.currentLabel := stepStab_label_of_not_commit st0 c h0

/-- C2: across any sequence of decision cycles in which the dwell-commit
condition is never reached - whenever a pending candidate matches the
confident, cooldown-free, differing label of a cycle, its dwell time has not
yet elapsed (the decision reverts before `DWELL_MS`) - `currentLabel`
never changes; and on any cycle whose decision equals the current label
the pending candidate is cleared. -/
theorem dwell_debounce (st0 : StabState) (cs : List Cycle)
    (h : ∀ i (hi : i < cs.length),
      ¬ commitFires (runStab st0 (cs.take i)) (cs.get ⟨i, hi⟩)) :
    (runStab st0 cs).currentLabel = st0.currentLabel ∧
    ∀ (st : StabState) (cyc : Cycle), cyc.label = st.currentLabel →
      (stepStab st cyc).lastCandidate = none := by
  refine ⟨runStab_label_of_no_commit cs st0 h, ?_⟩
  intro st cyc heq
  unfold stepStab
  have hmain : ¬ (st.cooldownUntil < cyc.now ∧ THRESH ≤ cyc.conf ∧ cyc.label ≠ st.currentLabel) := by
    rintro ⟨-, -, hne⟩
    exact hne heq
  rw [if_neg hmain, if_pos heq]

/-- Witness for C2: a confused candidate appears confidently at t=100 and
the decision reverts to the current label at t=200, before the 1200 ms
dwell; the stable label stays `focused` and the reverting cycle clears
the pending candidate. -/
theorem dwell_debounce_witness :
    (runStab ⟨.focused, 0, none⟩ [⟨.confused, 1, 100⟩, ⟨.focused, 1, 200⟩]).currentLabel
      = .focused ∧
    (stepStab ⟨.focused, 0, some (.confused, 100)⟩ ⟨.focused, 1, 200⟩).lastCandidate = none := by
  have h := dwell_debounce ⟨.focused, 0, none⟩ [⟨.confused, 1, 100⟩, ⟨.focused, 1, 200⟩] ?_
  · exact ⟨h.1, h.2 ⟨.focused, 0, some (.confused, 100)⟩ ⟨.focused, 1, 200⟩ rfl⟩
  · intro i hi
    simp only [List.length_cons, List.length_nil] at hi
    interval_cases i
    · simp [runStab, commitFires]
    · have hone : runStab ⟨.focused, 0, none⟩
          (([⟨.confused, 1, 100⟩, ⟨.focused, 1, 200⟩] : List Cycle).take 1)
          = ⟨.focused, 0, some (.confused, 100)⟩ := by
        show stepStab ⟨.focused, 0, none⟩ ⟨.confused, 1, 100⟩ = _
        norm_num [stepStab, THRESH]
        intro hcon
        exact absurd hcon (by simp)
      rw [hone]
      simp [commitFires]

lemma stepStab_in_cooldown (st : StabState) (next : Cycle)
    (hc : ¬ st.cooldownUntil < next.now) (hn : st.lastCandidate = none) :
    stepStab st next = st := by
  rcases st with ⟨a, b, c⟩
  simp only at hn
  subst hn
  unfold stepStab
  rw [if_neg (fun hh => hc hh.1)]
  by_cases he : next.label = a
  · rw [if_pos he]
  · rw [if_neg he]

/-- C3: a cycle meeting all commit conditions at time `T` sets
`cooldownUntil = T + COOLDOWN_MS` and switches `currentLabel`; any
further cycle evaluated at `now` with `T ≤ now < T + COOLDOWN_MS` - even
one carrying confidence 1 - leaves the state completely unchanged, so no
further switch is committed. -/
theorem cooldown_lockout (st : StabState) (cyc : Cycle) (s0 : ℚ)
    (hcool : st.cooldownUntil < cyc.now) (hconf : THRESH ≤ cyc.conf)
    (hdiff : cyc.label ≠ st.currentLabel)
    (hcand : st.lastCandidate = some (cyc.label, s0))
    (hdwell : DWELL_MS ≤ cyc.now - s0)
    (next : Cycle) (_hlo : cyc.now ≤ next.now) (hhi : next.now < cyc.now + COOLDOWN_MS) :
    (stepStab st cyc).currentLabel = cyc.label ∧
    (stepStab st cyc).cooldownUntil = cyc.now + COOLDOWN_MS ∧
    stepStab (stepStab st cyc) next = stepStab st cyc := by
  have hcommit : stepStab st cyc =
      { currentLabel := cyc.label, cooldownUntil := cyc.now + COOLDOWN_MS,
        lastCandidate := none } := by
    unfold stepStab
    rw [if_pos ⟨hcool, hconf, hdiff⟩, hcand]
    simp [hdwell]
  refine ⟨by rw [hcommit], by rw [hcommit], ?_⟩
  have h1 : (stepStab st cyc).lastCandidate = none := by rw [hcommit]
  have h2 : ¬ (stepStab st cyc).cooldownUntil < next.now := by
    rw [hcommit]
    simp only [not_lt]
    linarith
  exact stepStab_in_cooldown _ next h2 h1

/-- Witness for C3: a commit fires at T = 1300 (pending since 100, dwell
1200 reached); a maximal-confidence `happy` candidate at t = 2000, inside
the 4500 ms cooldown, changes nothing. -/
theorem cooldown_lockout_witness :
    DWELL_MS ≤ (1300 : ℚ) - 100 ∧
    (2000 : ℚ) < 1300 + COOLDOWN_MS ∧
    ((stepStab ⟨.focused, 0, some (.confused, 100)⟩ ⟨.confused, 1, 1300⟩).currentLabel
        = .confused ∧
     (stepStab ⟨.focused, 0, some (.confused, 100)⟩ ⟨.confused, 1, 1300⟩).cooldownUntil
        = 1300 + COOLDOWN_MS ∧
     stepStab (stepStab ⟨.focused, 0, some (.confused, 100)⟩ ⟨.confused, 1, 1300⟩)
         ⟨.happy, 1, 2000⟩
        = stepStab ⟨.focused, 0, some (.confused, 100)⟩ ⟨.confused, 1, 1300⟩) := by
  refine ⟨by norm_num [DWELL_MS], by norm_num [COOLDOWN_MS], ?_⟩
  exact cooldown_lockout ⟨.focused, 0, some (.confused, 100)⟩ ⟨.confused, 1, 1300⟩ 100
    (by norm_num) (by norm_num [THRESH]) (by simp) rfl (by norm_num [DWELL_MS])
    ⟨.happy, 1, 2000⟩ (by norm_num) (by norm_num [COOLDOWN_MS])

lemma min0_sum_nonneg (raw : List (EmotionLabel × ℚ)) :
    0 ≤ (((raw.map fun kv => (kv.1, max 0 kv.2)).map Prod.snd)).sum := by
  apply List.sum_nonneg
  intro x hx
  simp only [List.map_map, List.mem_map, Function.comp] at hx
  obtain ⟨kv, _, rfl⟩ := hx
  exact le_max_left _ _

lemma normalizeScores_sum_one (raw : List (EmotionLabel × ℚ))
    (hpos : 0 < ((raw.map fun kv => (kv.1, max 0 kv.2)).map Prod.snd).sum) :
    ((normalizeScores raw).map Prod.snd).sum = 1 := by
  simp only [normalizeScores]
  rw [if_neg hpos.ne']
  rw [List.map_map]
  have hcomp : (Prod.snd ∘ fun kv : EmotionLabel × ℚ =>
      (kv.1, kv.2 / ((raw.map fun kv => (kv.1, max 0 kv.2)).map Prod.snd).sum))
      = fun kv : EmotionLabel × ℚ =>
        kv.2 / ((raw.map fun kv => (kv.1, max 0 kv.2)).map Prod.snd).sum := rfl
  rw [hcomp, list_sum_map_div]
  exact div_self hpos.ne'

lemma normalizeScores_nonneg (raw : List (EmotionLabel × ℚ)) :
    ∀ kv ∈ normalizeScores raw, 0 ≤ kv.2 := by
  intro kv hkv
  simp only [normalizeScores, List.mem_map] at hkv
  obtain ⟨kv1, hkv1, rfl⟩ := hkv
  obtain ⟨kv0, hkv0, rfl⟩ := hkv1
  have hnum : (0:ℚ) ≤ max 0 kv0.2 := le_max_left _ _
  have hden : (0:ℚ) ≤ (if ((raw.map fun kv => (kv.1, max 0 kv.2)).map Prod.snd).sum = 0 then 1
      else ((raw.map fun kv => (kv.1, max 0 kv.2)).map Prod.snd).sum) := by
    by_cases h0 : ((raw.map fun kv => (kv.1, max 0 kv.2)).map Prod.snd).sum = 0
    · rw [if_pos h0]; norm_num
    · rw [if_neg h0]; exact min0_sum_nonneg raw
  exact div_nonneg hnum hden

lemma base_sum_pos_aux (a s d sq f c H m SA NE : ℚ)
    (ha0 : 0 ≤ a) (_ha1 : a ≤ 1) (hs0 : 0 ≤ s) (_hs1 : s ≤ 1)
    (hd0 : 0 ≤ d) (_hd1 : d ≤ 1) (_hsq0 : 0 ≤ sq) (hsq1 : sq ≤ 1) (hf0 : 0 ≤ f) :
    0 < max 0 (if 12/100 ≤ c then
            1 * c + 30/100 * a + 25/100 * d + 18/100 * s - 12/100 * H - 25/100 * f
          else 2/100)
        + (max 0 (max (105/100 * f + 25/100 * sq - 25/100 * m + SA - 6/100 * H) (6/10 * f))
        + (max 0 (1 * H - 12/100 * (a + s + d + sq + f))
        + (max 0 NE + 0))) := by
  by_cases hc : 12/100 ≤ c
  · rw [if_pos hc]
    rcases hf0.lt_or_eq with hf | hf
    · exact max0_sum4_pos_snd _ _ _ _ (lt_max_iff.mpr (Or.inr (by linarith)))
    · by_contra hcon
      push_neg at hcon
      have n2 : (0:ℚ) ≤ max 0 (max (105/100 * f + 25/100 * sq - 25/100 * m + SA - 6/100 * H)
          (6/10 * f)) := le_max_left _ _
      have n4 : (0:ℚ) ≤ max 0 NE := le_max_left _ _
      have u1 : 1 * c + 30/100 * a + 25/100 * d + 18/100 * s - 12/100 * H - 25/100 * f
          ≤ max 0 (1 * c + 30/100 * a + 25/100 * d + 18/100 * s - 12/100 * H - 25/100 * f) :=
        le_max_right _ _
      have u3 : 1 * H - 12/100 * (a + s + d + sq + f)
          ≤ max 0 (1 * H - 12/100 * (a + s + d + sq + f)) := le_max_right _ _
      have n1 : (0:ℚ) ≤ max 0 (1 * c + 30/100 * a + 25/100 * d + 18/100 * s - 12/100 * H
          - 25/100 * f) := le_max_left _ _
      have n3 : (0:ℚ) ≤ max 0 (1 * H - 12/100 * (a + s + d + sq + f)) := le_max_left _ _
      linarith
  · rw [if_neg hc]
    exact max0_sum4_pos_fst _ _ _ _ (by norm_num)

lemma rawScores_sum_pos (avg : ExpressionProbs) (g : GeomN) (hv : ValidProbs avg)
    (hf0 : 0 ≤ g.furrowN) (hsq0 : 0 ≤ g.squintN) (hsq1 : g.squintN ≤ 1) :
    0 < (((rawScores avg g).map fun kv => (kv.1, max 0 kv.2)).map Prod.snd).sum := by
  obtain ⟨hn0, hn1, hh0, hh1, hs0, hs1, ha0, ha1, hfe0, hfe1, hd0, hd1, hsu0, hsu1⟩ := hv
  simp only [rawScores, List.map_cons, List.map_nil, List.sum_cons, List.sum_nil]
  exact base_sum_pos_aux avg.angry avg.sad avg.disgusted g.squintN g.furrowN g.cornerDropN
    (dampHappy avg g) g.mouthOpenN (min (3/100) (3/100 * (avg.fearful + avg.surprised)))
    (65/100 * dampNeutral avg g * (1 - 6/10 * (g.furrowN + g.squintN))
      - 1/10 * (avg.surprised + avg.fearful + avg.angry))
    ha0 ha1 hs0 hs1 hd0 hd1 hsq0 hsq1 hf0

/-- C5: for every averaged distribution with category values in the unit
interval and arbitrary geometric features, the produced fusion
ScoreVector has all entries nonnegative and summing to exactly 1 - in the
override branch (fixed distribution divided by its own sum) and in the
base branch (clamp at 0, then divide by the sum, which is provably
positive for such inputs). -/
theorem score_vector_normalized (baseEAR : ℚ) (avg : ExpressionProbs) (heur : Heur)
    (hv : ValidProbs avg) :
    ((mapToFourWithHeur baseEAR avg heur).scores.map Prod.snd).sum = 1 ∧
    ∀ kv ∈ (mapToFourWithHeur baseEAR avg heur).scores, 0 ≤ kv.2 := by
  have hg0 := normGeom_furrowN_nonneg baseEAR heur
  have hq0 := normGeom_squintN_nonneg baseEAR heur
  have hq1 := normGeom_squintN_le_one baseEAR heur
  constructor
  · simp only [mapToFourWithHeur]
    split
    · norm_num
    · exact normalizeScores_sum_one _ (rawScores_sum_pos avg _ hv hg0 hq0 hq1)
  · simp only [mapToFourWithHeur]
    split
    · intro kv hkv
      simp only [List.mem_cons, List.not_mem_nil, or_false] at hkv
      rcases hkv with rfl | rfl | rfl | rfl <;> norm_num
    · exact normalizeScores_nonneg _

/-- Witness for C5 at a pure-neutral averaged distribution and zero
geometry (base-scoring branch). -/
theorem score_vector_normalized_witness :
    ValidProbs ⟨1, 0, 0, 0, 0, 0, 0⟩ ∧
    ((mapToFourWithHeur 0 ⟨1, 0, 0, 0, 0, 0, 0⟩ ⟨0, 0, none, none⟩).scores.map Prod.snd).sum = 1 ∧
    ∀ kv ∈ (mapToFourWithHeur 0 ⟨1, 0, 0, 0, 0, 0, 0⟩ ⟨0, 0, none, none⟩).scores, 0 ≤ kv.2 :=
  ⟨by norm_num [ValidProbs],
   (score_vector_normalized 0 ⟨1, 0, 0, 0, 0, 0, 0⟩ ⟨0, 0, none, none⟩ (by norm_num [ValidProbs])).1,
   (score_vector_normalized 0 ⟨1, 0, 0, 0, 0, 0, 0⟩ ⟨0, 0, none, none⟩ (by norm_num [ValidProbs])).2⟩

lemma ptDist_nonneg (a b : Pt) : 0 ≤ ptDist a b := Real.sqrt_nonneg _

lemma geps_pos : (0:ℝ) < geps := by norm_num [geps]

lemma ipd_pos (lm : Landmarks) : 0 < ipd lm :=
  add_pos_of_nonneg_of_pos (ptDist_nonneg _ _) geps_pos

lemma mouthWidth_pos (lm : Landmarks) : 0 < mouthWidth lm :=
  add_pos_of_nonneg_of_pos (ptDist_nonneg _ _) geps_pos

lemma earDen_pos (a b : Pt) : 0 < earDen a b :=
  add_pos_of_nonneg_of_pos (by have := ptDist_nonneg a b; linarith) geps_pos

lemma earOf_nonneg (e0 e1 e2 e3 e4 e5 : Pt) : 0 ≤ earOf e0 e1 e2 e3 e4 e5 :=
  div_nonneg (add_nonneg (ptDist_nonneg _ _) (ptDist_nonneg _ _)) (earDen_pos e0 e3).le

lemma earNow_nonneg (lm : Landmarks) : 0 ≤ earNow lm := by
  unfold earNow
  have h1 := earOf_nonneg (lm.positions 36) (lm.positions 37) (lm.positions 38)
    (lm.positions 39) (lm.positions 40) (lm.positions 41)
  have h2 := earOf_nonneg (lm.positions 42) (lm.positions 43) (lm.positions 44)
    (lm.positions 45) (lm.positions 46) (lm.positions 47)
  linarith

/-- C8: for every landmark set, including degenerate ones with coincident
points, each distance-ratio denominator of the geometry functions and of
the calibration samples carries the additive 1e-6 epsilon and is strictly
positive, so no division by zero occurs; all outputs are well-defined
finite reals, with `browFurrow` clamped into [0,1] and the remaining
features nonnegative. -/
theorem geometry_no_div_zero (lm : Landmarks) (base : ℝ) :
    0 < ipd lm ∧
    0 < mouthWidth lm ∧
    0 < earDen (lm.positions 36) (lm.positions 39) ∧
    0 < earDen (lm.positions 42) (lm.positions 45) ∧
    0 ≤ betweenNow lm ∧
    0 ≤ earNow lm ∧
    0 ≤ browFurrow (some lm) base ∧ browFurrow (some lm) base ≤ 1 ∧
    0 ≤ mouthCornerDrop (some lm) ∧
    0 ≤ mouthOpen (some lm) ∧
    0 ≤ eyeAspectRatio (some lm) := by
  refine ⟨ipd_pos lm, mouthWidth_pos lm, earDen_pos _ _, earDen_pos _ _, ?_, earNow_nonneg lm,
    ?_, ?_, ?_, ?_, ?_⟩
  · exact div_nonneg (ptDist_nonneg _ _) (ipd_pos lm).le
  · unfold browFurrow
    exact le_max_left _ _
  · unfold browFurrow
    exact max_le zero_le_one (min_le_left _ _)
  · unfold mouthCornerDrop
    exact div_nonneg (le_max_left _ _) (mouthWidth_pos lm).le
  · unfold mouthOpen
    exact div_nonneg (le_max_left _ _) (mouthWidth_pos lm).le
  · unfold eyeAspectRatio
    exact earNow_nonneg lm

lemma runCal_invariant : ∀ (lms : List Landmarks) (st : CalState),
    st.calCount + lms.length ≤ CAL_FRAMES →
    (runCal st (lms.map some)).calCount = st.calCount + lms.length ∧
    (runCal st (lms.map some)).baseBetweenN * ((st.calCount + lms.length : ℕ) : ℝ) =
      st.baseBetweenN * (st.calCount : ℝ) + (lms.map betweenNow).sum ∧
    (runCal st (lms.map some)).baseEAR * ((st.calCount + lms.length : ℕ) : ℝ) =
      st.baseEAR * (st.calCount : ℝ) + (lms.map earNow).sum := by
  intro lms
  induction lms with
  | nil =>
    intro st _
    refine ⟨by simp [runCal], ?_, ?_⟩ <;> simp [runCal]
  | cons lm t ih =>
    intro st h
    have hlt : ¬ CAL_FRAMES ≤ st.calCount := by
      simp only [List.length_cons] at h
      omega
    have hne : ((st.calCount : ℝ) + 1) ≠ 0 := by positivity
    have hstep : updateCalibration st (some lm) =
        { calCount := st.calCount + 1
          baseBetweenN := st.baseBetweenN * (1 - 1 / ((st.calCount + 1 : ℕ) : ℝ))
            + betweenNow lm * (1 / ((st.calCount + 1 : ℕ) : ℝ))
          baseEAR := st.baseEAR * (1 - 1 / ((st.calCount + 1 : ℕ) : ℝ))
            + earNow lm * (1 / ((st.calCount + 1 : ℕ) : ℝ)) } := by
      simp only [updateCalibration]
      rw [if_neg hlt]
    have hrun : runCal st ((lm :: t).map some)
        = runCal (updateCalibration st (some lm)) (t.map some) := rfl
    have hcount : (updateCalibration st (some lm)).calCount = st.calCount + 1 := by
      rw [hstep]
    have hlen : (updateCalibration st (some lm)).calCount + t.length ≤ CAL_FRAMES := by
      rw [hcount]
      simp only [List.length_cons] at h
      omega
    have hlistlen : st.calCount + (lm :: t).length
        = (updateCalibration st (some lm)).calCount + t.length := by
      rw [hcount]
      simp only [List.length_cons]
      omega
    obtain ⟨ihc, ihb, ihe⟩ := ih (updateCalibration st (some lm)) hlen
    have hb1 : (updateCalibration st (some lm)).baseBetweenN
        * (((updateCalibration st (some lm)).calCount : ℕ) : ℝ)
        = st.baseBetweenN * (st.calCount : ℝ) + betweenNow lm := by
      rw [hstep]
      simp only
      push_cast
      field_simp
    have he1 : (updateCalibration st (some lm)).baseEAR
        * (((updateCalibration st (some lm)).calCount : ℕ) : ℝ)
        = st.baseEAR * (st.calCount : ℝ) + earNow lm := by
      rw [hstep]
      simp only
      push_cast
      field_simp
    refine ⟨?_, ?_, ?_⟩
    · rw [hrun, ihc, hcount]
      simp only [List.length_cons]
      omega
    · rw [hrun, hlistlen, ihb]
      simp only [List.map_cons, List.sum_cons]
      linarith [hb1]
    · rw [hrun, hlistlen, ihe]
      simp only [List.map_cons, List.sum_cons]
      linarith [he1]

/-- C9: after n frames with landmarks present (1 ≤ n ≤ CAL_FRAMES)
starting from the zero-initialized state, the calibration counter equals
n and each baseline equals the arithmetic mean of the first n per-frame
samples of the corresponding quantity; a call with landmarks absent, or
once the counter has reached CAL_FRAMES, is a no-op. -/
theorem calibration_mean (lms : List Landmarks) (st st2 : CalState) (lm : Landmarks)
    (h1 : 1 ≤ lms.length) (h2 : lms.length ≤ CAL_FRAMES) (h3 : CAL_FRAMES ≤ st.calCount) :
    (runCal initCal (lms.map some)).calCount = lms.length ∧
    (runCal initCal (lms.map some)).baseBetweenN = (lms.map betweenNow).sum / (lms.length : ℝ) ∧
    (runCal initCal (lms.map some)).baseEAR = (lms.map earNow).sum / (lms.length : ℝ) ∧
    updateCalibration st2 none = st2 ∧
    updateCalibration st (some lm) = st := by
  have hpos : 0 < lms.length := h1
  have hne : ((lms.length : ℝ)) ≠ 0 := by
    exact_mod_cast hpos.ne'
  obtain ⟨hc, hb, he⟩ := runCal_invariant lms initCal (by simpa [initCal] using h2)
  refine ⟨by simpa [initCal] using hc, ?_, ?_, rfl, ?_⟩
  · rw [eq_div_iff hne]
    simpa [initCal] using hb
  · rw [eq_div_iff hne]
    simpa [initCal] using he
  · simp only [updateCalibration]
    rw [if_pos h3]

/-- Witness for C9: one calibration frame with all landmarks at the
origin makes each baseline the mean of its single sample; a frozen state
(counter at CAL_FRAMES) and an absent-landmarks call are no-ops. -/
theorem calibration_mean_witness :
    1 ≤ ([⟨fun _ => ⟨0, 0⟩⟩] : List Landmarks).length ∧
    ([⟨fun _ => ⟨0, 0⟩⟩] : List Landmarks).length ≤ CAL_FRAMES ∧
    CAL_FRAMES ≤ (⟨90, 1, 1⟩ : CalState).calCount ∧
    ((runCal initCal (([⟨fun _ => ⟨0, 0⟩⟩] : List Landmarks).map some)).calCount
        = ([⟨fun _ => ⟨0, 0⟩⟩] : List Landmarks).length ∧
     (runCal initCal (([⟨fun _ => ⟨0, 0⟩⟩] : List Landmarks).map some)).baseBetweenN
        = (([⟨fun _ => ⟨0, 0⟩⟩] : List Landmarks).map betweenNow).sum
            / (([⟨fun _ => ⟨0, 0⟩⟩] : List Landmarks).length : ℝ) ∧
     (runCal initCal (([⟨fun _ => ⟨0, 0⟩⟩] : List Landmarks).map some)).baseEAR
        = (([⟨fun _ => ⟨0, 0⟩⟩] : List Landmarks).map earNow).sum
            / (([⟨fun _ => ⟨0, 0⟩⟩] : List Landmarks).length : ℝ) ∧
     updateCalibration ⟨5, 2, 3⟩ none = (⟨5, 2, 3⟩ : CalState) ∧
     updateCalibration ⟨90, 1, 1⟩ (some ⟨fun _ => ⟨0, 0⟩⟩) = (⟨90, 1, 1⟩ : CalState)) :=
  ⟨by simp, by norm_num [CAL_FRAMES], by norm_num [CAL_FRAMES],
   calibration_mean [⟨fun _ => ⟨0, 0⟩⟩] ⟨90, 1, 1⟩ ⟨5, 2, 3⟩ ⟨fun _ => ⟨0, 0⟩⟩
     (by simp) (by norm_num [CAL_FRAMES]) (by norm_num [CAL_FRAMES])⟩

end EmotionAdaptiveUI
